import Mathlib

/-
Verification of the esky privileged-helper communication subsystem
(src/esky/helper/helper_unix.py) and of the bootstrap manifest writer
(src/esky/bdist_esky.py), as a shallow embedding in Lean 4.

Bytes are modelled as natural numbers, byte strings as lists of naturals.
A unidirectional FIFO conduit is modelled by the bytes currently buffered
in the kernel together with a flag recording whether the writing side has
closed; a single os.read / os.write call is modelled by the standard POSIX
pipe semantics (read returns min(requested, available) bytes without
waiting for the full count, and returns an empty string exactly at
end-of-stream; write may be accepted only partially, the count accepted
being chosen by the OS).
-/

set_option autoImplicit false

/-- State of one unidirectional FIFO conduit: the bytes currently buffered
and whether the writing end has been closed. -/
structure FifoState where
  buf : List Nat
  writerClosed : Bool
  deriving DecidableEq

/-- Semantics of a single os.read(fd, n) call on a FIFO. Returns none when
the call would block (no data buffered and the writer still open); otherwise
returns the bytes delivered and the successor state. A read of 0 bytes
returns immediately; at end-of-stream the empty list is returned. -/
def osRead (s : FifoState) (n : Nat) : Option (List Nat × FifoState) :=
  if n = 0 then some ([], s)
  else if s.buf = [] then
    if s.writerClosed then some ([], s) else none
  else some (s.buf.take n, ⟨s.buf.drop n, s.writerClosed⟩)

/-- Semantics of a single os.write(fd, data) call on a FIFO, where the OS
accepts `k` bytes of the data. Returns the count actually written and the
successor state. -/
def osWrite (s : FifoState) (data : List Nat) (k : Nat) : Nat × FifoState :=
  (min k data.length, ⟨s.buf ++ data.take k, s.writerClosed⟩)

/-- DuplexPipe.read at the byte level (helper_unix.py lines 58-62): a single
os.read call for `size` bytes, no retry loop. The lazy opening of the read
descriptor is bookkeeping on the endpoint record and is modelled separately
below. -/
def DuplexPipe.readBytes (s : FifoState) (size : Nat) : Option (List Nat × FifoState) :=
  osRead s size

/-- DuplexPipe.write at the byte level (helper_unix.py lines 64-67): a single
os.write call, returning the count the OS accepted. -/
def DuplexPipe.writeBytes (s : FifoState) (data : List Nat) (k : Nat) : Nat × FifoState :=
  osWrite s data k

/-- Model of struct.pack("I", n): the 4-byte unsigned encoding of n in the
host byte order, taken little-endian as on x86. -/
def pack4 (n : Nat) : List Nat :=
  [n % 256, n / 256 % 256, n / 65536 % 256, n / 16777216 % 256]

/-- Model of struct.unpack("I", b)[0] for a 4-byte string b. -/
def unpack4 (b : List Nat) : Nat :=
  match b with
  | [b0, b1, b2, b3] => b0 + 256 * b1 + 65536 * b2 + 16777216 * b3
  | _ => 0

/-- Outcome of SubprocPipe.read: a decoded object, an EOFError raised on a
truncated frame, or an unpickling failure on a structurally complete frame. -/
inductive ReadResult (α : Type) where
  | ok : α → ReadResult α
  | eofError : ReadResult α
  | protocolError : ReadResult α
  deriving DecidableEq

/-- SubprocPipe.read (helper_unix.py lines 88-97), parametrised by the
deserialization function standing for pickle.loads (none models an
unpickling exception). Returns none when an underlying read would block. -/
def SubprocPipe.read {α : Type} (loads : List Nat → Option α) (s : FifoState) :
    Option (ReadResult α × FifoState) :=
  match DuplexPipe.readBytes s 4 with
  | none => none
  | some (szb, s1) =>
    if szb.length < 4 then some (ReadResult.eofError, s1)
    else
      let sz := unpack4 szb
      match DuplexPipe.readBytes s1 sz with
      | none => none
      | some (data, s2) =>
        if data.length < sz then some (ReadResult.eofError, s2)
        else
          match loads data with
          | some o => some (ReadResult.ok o, s2)
          | none => some (ReadResult.protocolError, s2)

/-- SubprocPipe.write (helper_unix.py lines 99-103), parametrised by the
serialization function standing for pickle.dumps and by the byte counts k1,
k2 the OS accepts for each of the two underlying writes. The counts returned
by the underlying writes are discarded, exactly as in the source. -/
def SubprocPipe.write {α : Type} (dumps : α → List Nat) (s : FifoState) (obj : α)
    (k1 k2 : Nat) : FifoState :=
  let data := dumps obj
  let s1 := (DuplexPipe.writeBytes s (pack4 data.length) k1).2
  (DuplexPipe.writeBytes s1 data k2).2

/-- Trace of the underlying channel writes issued by one SubprocPipe.write
call: the 4-byte size header, then the payload, nothing else. -/
def SubprocPipe.writeCalls {α : Type} (dumps : α → List Nat) (obj : α) : List (List Nat) :=
  [pack4 (dumps obj).length, dumps obj]

theorem pack4_length (n : Nat) : (pack4 n).length = 4 := rfl

theorem unpack4_pack4 (n : Nat) (h : n < 4294967296) : unpack4 (pack4 n) = n := by
  simp only [pack4, unpack4]
  omega

/-- A single os.read call delivers exactly the first block when the buffer
holds that block followed by a remainder and the block has the requested
length. -/
theorem osRead_exact (l rest : List Nat) (c : Bool) (n : Nat) (h : l.length = n) :
    osRead ⟨l ++ rest, c⟩ n = some (l, ⟨rest, c⟩) := by
  rcases Nat.eq_zero_or_pos n with hn | hn
  · subst hn
    have hl : l = [] := List.eq_nil_of_length_eq_zero h
    subst hl
    simp [osRead]
  · have hl : l ≠ [] := by
      intro hl
      subst hl
      simp at h
      omega
    have hbuf : l ++ rest ≠ [] := by
      intro hc
      exact hl (List.append_eq_nil.mp hc).1
    simp only [osRead, if_neg (by omega : ¬ n = 0), if_neg hbuf]
    rw [← h, List.take_left, List.drop_left]

/-- DuplexPipe endpoint record (helper_unix.py lines 43-53): the shared
temporary directory, the name of the conduit this endpoint reads from, the
name of the conduit it writes to, and the lazily opened read/write file
descriptors, both None until the first read or write. -/
structure DuplexPipe where
  tdir : String
  rnm : String
  wnm : String
  rfd : Option Nat
  wfd : Option Nat
  deriving DecidableEq

/-- Model of os.path.join for the two-argument uses in the source. -/
def pathJoin (d n : String) : String :=
  if n.startsWith "/" then n
  else if d = "" then n
  else if d.endsWith "/" then d ++ n
  else d ++ "/" ++ n

/-- DuplexPipe.__init__ with data=None (lines 46-51): a fresh endpoint over
two fifos named pipeout and pipein in a fresh private directory. -/
def DuplexPipe.create (tdir : String) : DuplexPipe :=
  ⟨tdir, pathJoin tdir "pipeout", pathJoin tdir "pipein", none, none⟩

/-- DuplexPipe.__init__ with explicit data (lines 52-53): rebuild an endpoint
from serialized location data, with both descriptors unopened. -/
def DuplexPipe.fromData (tdir rnm wnm : String) : DuplexPipe :=
  ⟨tdir, rnm, wnm, none, none⟩

/-- DuplexPipe.connect (lines 55-56): the mirrored endpoint over the same
conduit pair, with the read/write roles swapped. -/
def DuplexPipe.connect (p : DuplexPipe) : DuplexPipe :=
  DuplexPipe.fromData p.tdir p.wnm p.rnm

/-- Filesystem state relevant to DuplexPipe.close: the entries currently
present in the shared temporary directory, and whether that directory still
exists. -/
structure Fs where
  files : List String
  dirPresent : Bool
  deriving DecidableEq

/-- Model of os.close: closing a descriptor that was never opened is the
Python TypeError raised by os.close(None). -/
def osClose (fd : Option Nat) : Except String Unit :=
  match fd with
  | none => Except.error "TypeError"
  | some _ => Except.ok ()

/-- Model of os.unlink restricted to entries of the shared directory. -/
def osUnlink (fs : Fs) (p : String) : Except String Fs :=
  if p ∈ fs.files then Except.ok ⟨fs.files.erase p, fs.dirPresent⟩
  else Except.error "ENOENT"

/-- Model of os.listdir on the shared directory. -/
def osListdir (fs : Fs) : Except String (List String) :=
  if fs.dirPresent then Except.ok fs.files else Except.error "ENOENT"

/-- Model of os.rmdir on the shared directory. -/
def osRmdir (fs : Fs) : Except String Fs :=
  if fs.dirPresent ∧ fs.files = [] then Except.ok ⟨[], false⟩
  else Except.error "ENOTEMPTY"

/-- DuplexPipe.close (helper_unix.py lines 69-74): close both descriptors,
unlink the write conduit, and remove the shared directory once empty. -/
def DuplexPipe.close (p : DuplexPipe) (fs : Fs) : Except String Fs := do
  let _ ← osClose p.rfd
  let _ ← osClose p.wfd
  let fs1 ← osUnlink fs p.wnm
  let l ← osListdir fs1
  if l = [] then osRmdir fs1 else pure fs1

/-- Process environment relevant to spawn_helper: the PATH variable (absent
means unset), whether DISPLAY is set, and the set of paths that exist on the
filesystem in the sense of os.path.exists. -/
structure Env where
  path : Option String
  display : Bool
  present : List String

/-- find_exe (helper_unix.py lines 126-131): scan the colon-separated PATH
entries (default "/bin:/usr/bin" when PATH is unset) for the first directory
in which the named program exists, and return that full path followed by the
fixed arguments; none when no entry matches. -/
def find_exe (env : Env) (name : String) (args : List String) : Option (List String) :=
  let dirs := (env.path.getD "/bin:/usr/bin").splitOn ":"
  match dirs.find? (fun dir => decide (pathJoin dir name ∈ env.present)) with
  | some dir => some (pathJoin dir name :: args)
  | none => none

/-- spawn_helper (helper_unix.py lines 134-159), reduced to the command line
handed to subprocess.Popen. helperExe stands for the find_helper() result,
pipeArg and eskyArg for the two base64-encoded pickled trailing arguments,
dn for the "name updater" display name. -/
def spawn_helper (env : Env) (helperExe : List String) (pipeArg eskyArg dn : String)
    (asRoot : Bool) : List String :=
  let exe := helperExe ++ [pipeArg, eskyArg]
  if asRoot then
    let su : Option (List String) :=
      if env.display then
        match find_exe env "gksudo" ["-k", "-D", dn, "--"] with
        | some s => some s
        | none => find_exe env "kdesudo" []
      else none
    let su2 : Option (List String) :=
      match su with
      | none => find_exe env "sudo" []
      | some s => some s
    match su2 with
    | some s => s ++ exe
    | none => exe
  else exe

/-- Modelled from the spec: the ordered list of escalation candidates, the
two graphical prompt tools first and only in a graphical session, the
terminal prompt tool sudo as the last resort. -/
def escalationCandidates (display : Bool) (dn : String) : List (String × List String) :=
  (if display then [("gksudo", ["-k", "-D", dn, "--"]), ("kdesudo", [])] else [])
    ++ [("sudo", [])]

/-- Modelled from the spec: probe PATH for each escalation candidate in order
and return the first one found. -/
def firstEscalation (env : Env) (dn : String) : Option (List String) :=
  (escalationCandidates env.display dn).findSome? (fun c => find_exe env c.1 c.2)

/-- Model of os.path.basename for slash-separated paths. -/
def basename (s : String) : String :=
  (s.splitOn "/").getLastD ""

/-- Model of the extension strip in bdist_esky.run line 73, the Python
expression joining with "." all dot-separated pieces of nm but the last. -/
def stripDotExt (nm : String) : String :=
  String.intercalate "." ((nm.splitOn ".").dropLast)

/-- Name under which a script lands in the bootstrap directory
(bdist_esky.py lines 71-75): basename, the .py or .pyw extension stripped,
and .exe appended on win32. -/
def scriptTargetName (win32 : Bool) (s : String) : String :=
  let nm := basename s
  let nm2 := if nm.endsWith ".py" || nm.endsWith ".pyw" then stripDotExt nm else nm
  if win32 then nm2 ++ ".exe" else nm2

/-- State threaded through the bootstrap-population part of bdist_esky.run:
the entries copied into the bootstrap directory so far and the manifest list
accumulated so far. -/
structure BuildState where
  bsFiles : List String
  manifest : List String
  deriving DecidableEq

/-- Bootstrap-population part of bdist_esky.run (bdist_esky.py lines 58-81):
library.zip is written into the fresh bootstrap directory and opens the
manifest; each script is copied under its target name and appended; each
entry of the distribution directory whose name starts with python is copied
and appended. -/
def bdistRun (win32 : Bool) (scripts fdirListing : List String) : BuildState :=
  let st0 : BuildState := ⟨["library.zip"], ["library.zip"]⟩
  let st1 := scripts.foldl (fun st s =>
    let nm := scriptTargetName win32 s
    ⟨st.bsFiles ++ [nm], st.manifest ++ [nm]⟩) st0
  fdirListing.foldl (fun st nm =>
    if nm.startsWith "python" then ⟨st.bsFiles ++ [nm], st.manifest ++ [nm]⟩ else st) st1

/-- Manifest-writing loop of bdist_esky.run (bdist_esky.py lines 82-86): each
manifest entry followed by one newline, in order. -/
def writeManifestText (manifest : List String) : String :=
  manifest.foldl (fun acc nm => acc ++ nm ++ "\n") ""

theorem osRead_all (l : List Nat) (c : Bool) (n : Nat) (hle : l.length ≤ n) :
    osRead ⟨l, c⟩ n = if l = [] ∧ n ≠ 0 ∧ c = false then none else some (l, ⟨[], c⟩) := by
  by_cases hn : n = 0
  · subst hn
    have hl : l = [] := by
      have := Nat.le_zero.mp hle
      exact List.eq_nil_of_length_eq_zero this
    subst hl
    simp [osRead]
  · by_cases hl : l = []
    · subst hl
      cases c <;> simp [osRead, hn]
    · simp only [osRead, if_neg hn, if_neg hl]
      rw [List.take_of_length_le hle, List.drop_of_length_le hle]
      simp [hl]

/-- Claim C1: on a connected endpoint pair over a quiescent conduit, a
completed SubprocPipe.write of an object o followed by SubprocPipe.read on
the other side yields exactly o, for every object whose serialization the
deserializer inverts and whose encoding fits the 4-byte length field. -/
theorem subproc_roundtrip {α : Type} (dumps : α → List Nat) (loads : List Nat → Option α)
    (o : α) (hinv : loads (dumps o) = some o) (hlen : (dumps o).length < 4294967296) :
    SubprocPipe.read loads (SubprocPipe.write dumps ⟨[], false⟩ o 4 (dumps o).length)
      = some (ReadResult.ok o, ⟨[], false⟩) := by
  have h4 : (pack4 (dumps o).length).take 4 = pack4 (dumps o).length :=
    List.take_of_length_le (by rw [pack4_length])
  have hwrite : SubprocPipe.write dumps ⟨[], false⟩ o 4 (dumps o).length
      = ⟨pack4 (dumps o).length ++ dumps o, false⟩ := by
    simp only [SubprocPipe.write, DuplexPipe.writeBytes, osWrite]
    rw [h4, List.take_of_length_le le_rfl, List.nil_append]
  rw [hwrite]
  simp only [SubprocPipe.read, DuplexPipe.readBytes]
  rw [osRead_exact _ _ _ _ (pack4_length _)]
  simp only [pack4_length, Nat.lt_irrefl, if_false, unpack4_pack4 _ hlen]
  have hread2 : osRead ⟨dumps o, false⟩ (dumps o).length = some (dumps o, ⟨[], false⟩) := by
    conv_lhs => rw [show (⟨dumps o, false⟩ : FifoState) = ⟨dumps o ++ [], false⟩ by
      rw [List.append_nil]]
    exact osRead_exact _ _ _ _ rfl
  rw [hread2]
  simp [hinv]

/-- Claim C1 witness: the identity serializer sends the two-byte object
[7, 3] across a fresh conduit and the reader recovers it. -/
theorem subproc_roundtrip_witness :
    SubprocPipe.read (fun l => some l)
        (SubprocPipe.write (fun l : List Nat => l) ⟨[], false⟩ [7, 3] 4 2)
      = some (ReadResult.ok [7, 3], ⟨[], false⟩) :=
  subproc_roundtrip (fun l => l) (fun l => some l) [7, 3] rfl (by decide)

/-- Claim C2: after the writer closes, a buffered frame truncated inside the
4-byte length field makes SubprocPipe.read raise EOFError, and a complete
length field followed by fewer payload bytes than announced also makes it
raise EOFError; in neither case is the unpickling error or any other outcome
produced. -/
theorem subproc_read_truncated {α : Type} (loads : List Nat → Option α)
    (b : List Nat) (hb : b.length < 4)
    (szb p : List Nat) (hsz : szb.length = 4) (hp : p.length < unpack4 szb) :
    SubprocPipe.read loads ⟨b, true⟩ = some (ReadResult.eofError, ⟨[], true⟩) ∧
    SubprocPipe.read loads ⟨szb ++ p, true⟩ = some (ReadResult.eofError, ⟨[], true⟩) := by
  constructor
  · have h1 : osRead ⟨b, true⟩ 4 = some (b, ⟨[], true⟩) := by
      rw [osRead_all b true 4 (by omega)]
      simp
    simp only [SubprocPipe.read, DuplexPipe.readBytes, h1]
    simp [hb]
  · have h1 : osRead ⟨szb ++ p, true⟩ 4 = some (szb, ⟨p, true⟩) :=
      osRead_exact _ _ _ _ hsz
    simp only [SubprocPipe.read, DuplexPipe.readBytes, h1]
    rw [if_neg (by omega : ¬ szb.length < 4)]
    have h2 : osRead ⟨p, true⟩ (unpack4 szb) = some (p, ⟨[], true⟩) := by
      rw [osRead_all p true (unpack4 szb) (by omega)]
      simp
    simp only [h2]
    simp [hp]

/-- Claim C2 witness: with the writer closed, a one-byte length-field
fragment raises EOFError, and the header announcing five bytes followed by
only two payload bytes raises EOFError. -/
theorem subproc_read_truncated_witness :
    SubprocPipe.read (fun l => some l) ⟨[9], true⟩
        = some (ReadResult.eofError, ⟨[], true⟩) ∧
    SubprocPipe.read (fun l => some l) ⟨[5, 0, 0, 0] ++ [1, 2], true⟩
        = some (ReadResult.eofError, ⟨[], true⟩) :=
  subproc_read_truncated (fun l : List Nat => some l) [9] (by decide)
    [5, 0, 0, 0] [1, 2] rfl (by decide)

/-- Claim C3: with escalation requested, the launched command line is the
helper command with exactly the first escalation candidate found on PATH
prepended, the candidate order being gksudo then kdesudo (both only in a
graphical session) then sudo; when no candidate is found the helper command
is spawned unchanged, so a connection is still produced and no launch
failure is possible. -/
theorem spawn_helper_escalation (env : Env) (helperExe : List String)
    (pipeArg eskyArg dn : String) :
    spawn_helper env helperExe pipeArg eskyArg dn true =
      (match firstEscalation env dn with
       | some s => s ++ (helperExe ++ [pipeArg, eskyArg])
       | none => helperExe ++ [pipeArg, eskyArg]) := by
  simp only [spawn_helper, firstEscalation, escalationCandidates, if_true]
  cases hd : env.display
  · simp only [if_false, List.nil_append, List.findSome?]
    cases hs : find_exe env "sudo" [] <;> simp
  · simp only [if_true, List.cons_append, List.nil_append, List.findSome?]
    cases hg : find_exe env "gksudo" ["-k", "-D", dn, "--"]
    · cases hk : find_exe env "kdesudo" []
      · cases hs : find_exe env "sudo" [] <;> simp
      · simp
    · simp

/-- Claim C4: with escalation not requested, the launched command line is
exactly the helper command followed by the two encoded trailing arguments,
whatever PATH holds and whatever elevation programs exist. -/
theorem spawn_helper_no_escalation (env : Env) (helperExe : List String)
    (pipeArg eskyArg dn : String) :
    spawn_helper env helperExe pipeArg eskyArg dn false
      = helperExe ++ [pipeArg, eskyArg] := rfl

/-- Claim C5 evaluation: with two bytes buffered and the writer still open,
a single DuplexPipe read of four bytes returns the two available bytes at
once instead of blocking for four, so a short read happens while the stream
is not at end-of-stream. -/
theorem duplex_read_short_midstream :
    DuplexPipe.readBytes ⟨[1, 2], false⟩ 4 = some ([1, 2], ⟨[], false⟩) ∧
    ([1, 2] : List Nat).length < 4 := by
  constructor
  · rfl
  · decide

/-- Claim C6: mirroring an endpoint twice restores its directory, its read
conduit name and its write conduit name, and a mirrored endpoint reads from
the conduit its source writes to and writes to the conduit its source reads
from. -/
theorem connect_involutive (p : DuplexPipe) :
    p.connect.connect.tdir = p.tdir ∧
    p.connect.connect.rnm = p.rnm ∧
    p.connect.connect.wnm = p.wnm ∧
    p.connect.rnm = p.wnm ∧
    p.connect.wnm = p.rnm :=
  ⟨rfl, rfl, rfl, rfl, rfl⟩

/-- Claim C7 counterexample: an endpoint with both descriptors open closes
successfully, yet the conduit it reads from is still present in the shared
directory afterwards; only the write conduit is removed. -/
theorem close_leaves_read_conduit :
    DuplexPipe.close ⟨"/tmp/t", "/tmp/t/pipeout", "/tmp/t/pipein", some 3, some 4⟩
        ⟨["/tmp/t/pipeout", "/tmp/t/pipein"], true⟩
      = Except.ok ⟨["/tmp/t/pipeout"], true⟩ ∧
    "/tmp/t/pipeout" ∈ (["/tmp/t/pipeout"] : List String) := by
  constructor
  · rfl
  · decide

/-- Claim C7 amended: close on an endpoint whose two descriptors are open
releases both directions and removes exactly the write conduit of that
endpoint (the peer removes the other), and it succeeds even when the peer
has already removed its own half. -/
theorem close_removes_write_conduit (tdir rnm wnm : String) (a b : Nat) (fs : Fs)
    (hw : wnm ∈ fs.files) (hd : fs.dirPresent = true) :
    ∃ fs2, DuplexPipe.close ⟨tdir, rnm, wnm, some a, some b⟩ fs = Except.ok fs2 ∧
      fs2.files = fs.files.erase wnm := by
  simp only [DuplexPipe.close, osClose, osUnlink, if_pos hw, osListdir, hd, if_true,
    Bind.bind, Except.bind]
  by_cases he : fs.files.erase wnm = []
  · refine ⟨⟨[], false⟩, ?_, ?_⟩
    · simp [he, osRmdir, hd]
    · simp [he]
  · refine ⟨⟨fs.files.erase wnm, fs.dirPresent⟩, ?_, rfl⟩
    simp [he, pure, Except.pure, hd]

/-- Claim C7 amended witness: the peer has already removed its half, so only
the write conduit remains; close succeeds and empties the directory. -/
theorem close_removes_write_conduit_witness :
    ∃ fs2, DuplexPipe.close ⟨"t", "t/pipeout", "t/pipein", some 0, some 1⟩
        ⟨["t/pipein"], true⟩ = Except.ok fs2 ∧
      fs2.files = (["t/pipein"] : List String).erase "t/pipein" :=
  close_removes_write_conduit "t" "t/pipeout" "t/pipein" 0 1 ⟨["t/pipein"], true⟩
    (by decide) rfl

/-- Claim C9: close raises on an endpoint on which a direction was never
used, because the corresponding descriptor is still unopened; the filesystem
state is irrelevant. -/
theorem close_requires_open_handles (p : DuplexPipe) (fs : Fs)
    (h : p.rfd = none ∨ p.wfd = none) :
    ∃ e, DuplexPipe.close p fs = Except.error e := by
  rcases h with h | h
  · exact ⟨"TypeError", by simp [DuplexPipe.close, osClose, h, Bind.bind, Except.bind]⟩
  · cases hr : p.rfd
    · exact ⟨"TypeError", by simp [DuplexPipe.close, osClose, hr, Bind.bind, Except.bind]⟩
    · exact ⟨"TypeError", by simp [DuplexPipe.close, osClose, hr, h, Bind.bind, Except.bind]⟩

/-- Claim C9 witness: an endpoint that never read has rfd unopened and its
close raises. -/
theorem close_requires_open_handles_witness :
    ∃ e, DuplexPipe.close ⟨"t", "t/pipeout", "t/pipein", none, some 1⟩
        ⟨["t/pipeout", "t/pipein"], true⟩ = Except.error e :=
  close_requires_open_handles ⟨"t", "t/pipeout", "t/pipein", none, some 1⟩
    ⟨["t/pipeout", "t/pipein"], true⟩ (Or.inl rfl)

/-- Claim C10: SubprocPipe.write issues exactly two underlying channel
writes, the 4-byte size header and the payload; whatever portions k1 and k2
the OS accepts of them, the function returns normally with the accepted
portions appended and the rejected remainders silently lost, the returned
counts being discarded. -/
theorem subproc_write_two_calls {α : Type} (dumps : α → List Nat) (obj : α)
    (s : FifoState) (k1 k2 : Nat) :
    (SubprocPipe.writeCalls dumps obj).length = 2 ∧
    SubprocPipe.writeCalls dumps obj = [pack4 (dumps obj).length, dumps obj] ∧
    (SubprocPipe.write dumps s obj k1 k2).buf
      = s.buf ++ (pack4 (dumps obj).length).take k1 ++ (dumps obj).take k2 ∧
    (SubprocPipe.write dumps s obj k1 k2).writerClosed = s.writerClosed := by
  refine ⟨rfl, rfl, ?_, rfl⟩
  simp [SubprocPipe.write, DuplexPipe.writeBytes, osWrite, List.append_assoc]

/-- Modelled from the spec: the manifest file format, one installed-file
name per line, each line closed by a newline. -/
def manifestLinesText : List String → String
  | [] => ""
  | nm :: rest => nm ++ "\n" ++ manifestLinesText rest

theorem writeManifestText_go (l : List String) :
    ∀ acc, l.foldl (fun acc nm => acc ++ nm ++ "\n") acc = acc ++ manifestLinesText l := by
  induction l with
  | nil => intro acc; simp [manifestLinesText, String.append_empty]
  | cons x t ih =>
    intro acc
    simp only [List.foldl_cons, manifestLinesText]
    rw [ih]
    simp [String.append_assoc]

theorem writeManifestText_eq (l : List String) :
    writeManifestText l = manifestLinesText l := by
  have h := writeManifestText_go l ""
  rw [writeManifestText, h, String.empty_append]

theorem foldl_inv {σ β : Type} (f : σ → β → σ) (inv : σ → Prop)
    (h : ∀ s x, inv s → inv (f s x)) :
    ∀ (l : List β) (s : σ), inv s → inv (l.foldl f s) := by
  intro l
  induction l with
  | nil => intro s hs; exact hs
  | cons x t ih =>
    intro s hs
    exact ih _ (h s x hs)

theorem buildInv_append (st : BuildState) (nm : String)
    (h1 : st.manifest.head? = some "library.zip")
    (h2 : ∀ x ∈ st.manifest, x ∈ st.bsFiles) :
    (st.manifest ++ [nm]).head? = some "library.zip" ∧
    ∀ x ∈ st.manifest ++ [nm], x ∈ st.bsFiles ++ [nm] := by
  constructor
  · have hne : st.manifest ≠ [] := by
      intro hc
      rw [hc] at h1
      simp at h1
    rw [List.head?_append_of_ne_nil _ hne]
    exact h1
  · intro x hx
    rcases List.mem_append.mp hx with hx | hx
    · exact List.mem_append.mpr (Or.inl (h2 x hx))
    · exact List.mem_append.mpr (Or.inr hx)

/-- Claim C8: the manifest built by bdist_esky.run starts with library.zip,
every name it lists was placed in the bootstrap directory, and the manifest
file written is plain text holding exactly one listed name per line. -/
theorem bdist_manifest_properties (win32 : Bool) (scripts fdirListing : List String) :
    (bdistRun win32 scripts fdirListing).manifest.head? = some "library.zip" ∧
    (∀ nm ∈ (bdistRun win32 scripts fdirListing).manifest,
      nm ∈ (bdistRun win32 scripts fdirListing).bsFiles) ∧
    writeManifestText (bdistRun win32 scripts fdirListing).manifest
      = manifestLinesText (bdistRun win32 scripts fdirListing).manifest := by
  have base : ((⟨["library.zip"], ["library.zip"]⟩ : BuildState).manifest.head?
        = some "library.zip") ∧
      ∀ x ∈ (⟨["library.zip"], ["library.zip"]⟩ : BuildState).manifest,
        x ∈ (⟨["library.zip"], ["library.zip"]⟩ : BuildState).bsFiles :=
    ⟨rfl, fun x hx => hx⟩
  have h1 := foldl_inv
    (fun (st : BuildState) (s : String) =>
      let nm := scriptTargetName win32 s
      (⟨st.bsFiles ++ [nm], st.manifest ++ [nm]⟩ : BuildState))
    (fun st => st.manifest.head? = some "library.zip" ∧ ∀ x ∈ st.manifest, x ∈ st.bsFiles)
    (fun st s hs => buildInv_append st (scriptTargetName win32 s) hs.1 hs.2)
    scripts ⟨["library.zip"], ["library.zip"]⟩ base
  have h2 := foldl_inv
    (fun (st : BuildState) (nm : String) =>
      if nm.startsWith "python" then (⟨st.bsFiles ++ [nm], st.manifest ++ [nm]⟩ : BuildState)
      else st)
    (fun st => st.manifest.head? = some "library.zip" ∧ ∀ x ∈ st.manifest, x ∈ st.bsFiles)
    (fun st nm hs => by
      by_cases hsw : nm.startsWith "python" = true
      · simpa [hsw] using buildInv_append st nm hs.1 hs.2
      · simpa [hsw] using hs)
    fdirListing _ h1
  exact ⟨h2.1, h2.2, writeManifestText_eq _⟩
